import Mathlib

/-!
Verification of the nps national-sites browser (`proj2_nps.py`).

The Python source is shallowly embedded: pure fragments become Lean
functions, the cache file and the module-level `CACHE_DICT` global become
explicit state, network and filesystem effects become an action trace, and
fallible code (uncaught Python exceptions) returns `Option`.
-/

namespace NPS

/-! ## JSON values

Model of the values handled by Python's `json` module as used in
`load_cache` / `save_cache`.  Numbers are modelled as integers (the cache
holds response texts and API result objects); strings are rendered with the
two-character escapes for quote, backslash, newline, tab and carriage
return, other characters literally. -/

inductive Json where
  | null : Json
  | bool : Bool → Json
  | num : Int → Json
  | str : String → Json
  | arr : List Json → Json
  | obj : List (String × Json) → Json

/-- The double-quote character. -/
def quoteChar : Char := Char.ofNat 34

/-- The backslash character. -/
def backslashChar : Char := Char.ofNat 92

/-- The opening-brace character. -/
def lbraceChar : Char := Char.ofNat 123

/-- The closing-brace character. -/
def rbraceChar : Char := Char.ofNat 125

/-- Two-character escape for the characters `json.dumps` escapes, identity
for the rest. -/
def escChar (c : Char) : List Char :=
  if c = quoteChar then [backslashChar, quoteChar]
  else if c = backslashChar then [backslashChar, backslashChar]
  else if c = '\n' then [backslashChar, 'n']
  else if c = '\t' then [backslashChar, 't']
  else if c = '\r' then [backslashChar, 'r']
  else [c]

/-- Escape a whole character list. -/
def escStr : List Char → List Char
  | [] => []
  | c :: cs => escChar c ++ escStr cs

/-- A JSON string literal: quote, escaped body, quote. -/
def renderStr (s : String) : List Char :=
  quoteChar :: (escStr s.data ++ [quoteChar])

/-- Decimal digit character. -/
def digitChar (n : Nat) : Char := Char.ofNat (48 + n)

/-- Decimal rendering of a natural number, most significant digit first. -/
def natChars (n : Nat) : List Char :=
  if n < 10 then [digitChar n]
  else natChars (n / 10) ++ [digitChar (n % 10)]
termination_by n
decreasing_by simp_wf; omega

/-- Decimal rendering of an integer. -/
def intChars (i : Int) : List Char :=
  if i < 0 then '-' :: natChars i.natAbs else natChars i.toNat

mutual

/-- Serialization of a JSON value, following `json.dumps` with its default
separators (`", "` between items, `": "` after a key). -/
def renderJson : Json → List Char
  | .null => ("null").data
  | .bool true => ("true").data
  | .bool false => ("false").data
  | .num i => intChars i
  | .str s => renderStr s
  | .arr xs => '[' :: (renderItems xs ++ [']'])
  | .obj ms => lbraceChar :: (renderMembers ms ++ [rbraceChar])

/-- Array items joined by `", "`. -/
def renderItems : List Json → List Char
  | [] => []
  | [x] => renderJson x
  | x :: y :: xs => renderJson x ++ ',' :: ' ' :: renderItems (y :: xs)

/-- Object members, each `key: value`, joined by `", "`. -/
def renderMembers : List (String × Json) → List Char
  | [] => []
  | [(k, v)] => renderStr k ++ ':' :: ' ' :: renderJson v
  | (k, v) :: m :: ms =>
      renderStr k ++ ':' :: ' ' :: renderJson v ++ ',' :: ' ' :: renderMembers (m :: ms)

end

/-- `json.dumps`. -/
def json_dumps (v : Json) : String := String.mk (renderJson v)

/-- JSON insignificant whitespace. -/
def isWsChar (c : Char) : Bool := c = ' ' || c = '\t' || c = '\n' || c = '\r'

/-- Skip insignificant whitespace. -/
def skipWs (cs : List Char) : List Char := cs.dropWhile isWsChar

/-- Decimal digit test. -/
def isDigitChar (c : Char) : Bool := 48 ≤ c.toNat && c.toNat ≤ 57

/-- Reverse of a two-character escape. -/
def unescChar (c : Char) : Option Char :=
  if c = quoteChar then some quoteChar
  else if c = backslashChar then some backslashChar
  else if c = 'n' then some '\n'
  else if c = 't' then some '\t'
  else if c = 'r' then some '\r'
  else none

/-- Parse a string-literal body up to and including the closing quote,
returning the unescaped characters and the remaining input. -/
def parseStrBody : List Char → Option (List Char × List Char)
  | [] => none
  | c :: cs =>
    if c = quoteChar then some ([], cs)
    else if c = backslashChar then
      match cs with
      | [] => none
      | e :: cs' =>
        match unescChar e with
        | some c' =>
          match parseStrBody cs' with
          | some r => some (c' :: r.1, r.2)
          | none => none
        | none => none
    else
      match parseStrBody cs with
      | some r => some (c :: r.1, r.2)
      | none => none

/-- Match an exact character sequence, returning the remaining input. -/
def dropExact : List Char → List Char → Option (List Char)
  | [], cs => some cs
  | _ :: _, [] => none
  | p :: ps, c :: cs => if c = p then dropExact ps cs else none

/-- Value of a list of decimal digit characters. -/
def digitsVal (ds : List Char) : Nat :=
  ds.foldl (fun a c => 10 * a + (c.toNat - 48)) 0

/-- Parse a nonempty run of decimal digits. -/
def parseNatNum (cs : List Char) : Option (Nat × List Char) :=
  if cs.takeWhile isDigitChar = [] then none
  else some (digitsVal (cs.takeWhile isDigitChar), cs.dropWhile isDigitChar)

mutual

/-- Fuel-indexed recursive-descent parser for a JSON value, modelling
`json.loads` on the grammar `json.dumps` emits. -/
def parseVal : Nat → List Char → Option (Json × List Char)
  | 0, _ => none
  | f + 1, cs =>
    match skipWs cs with
    | [] => none
    | c :: cs' =>
      if c = quoteChar then
        match parseStrBody cs' with
        | some r => some (.str (String.mk r.1), r.2)
        | none => none
      else if c = lbraceChar then
        match parseMembers f cs' with
        | some r => some (.obj r.1, r.2)
        | none => none
      else if c = '[' then
        match parseItems f cs' with
        | some r => some (.arr r.1, r.2)
        | none => none
      else if c = 'n' then
        match dropExact ['u', 'l', 'l'] cs' with
        | some rest => some (.null, rest)
        | none => none
      else if c = 't' then
        match dropExact ['r', 'u', 'e'] cs' with
        | some rest => some (.bool true, rest)
        | none => none
      else if c = 'f' then
        match dropExact ['a', 'l', 's', 'e'] cs' with
        | some rest => some (.bool false, rest)
        | none => none
      else if c = '-' then
        match parseNatNum cs' with
        | some r => some (.num (-(r.1 : Int)), r.2)
        | none => none
      else if isDigitChar c then
        match parseNatNum (c :: cs') with
        | some r => some (.num (r.1 : Int), r.2)
        | none => none
      else none

/-- Parse the items of an array after the opening bracket. -/
def parseItems : Nat → List Char → Option (List Json × List Char)
  | 0, _ => none
  | f + 1, cs =>
    match skipWs cs with
    | [] => none
    | c :: cs' =>
      if c = ']' then some ([], cs')
      else
        match parseVal f (c :: cs') with
        | none => none
        | some (v, rest1) =>
          match skipWs rest1 with
          | ',' :: rest2 =>
            match parseItems f rest2 with
            | some r => some (v :: r.1, r.2)
            | none => none
          | c2 :: rest2 => if c2 = ']' then some ([v], rest2) else none
          | [] => none

/-- Parse the members of an object after the opening brace. -/
def parseMembers : Nat → List Char → Option (List (String × Json) × List Char)
  | 0, _ => none
  | f + 1, cs =>
    match skipWs cs with
    | [] => none
    | c :: cs' =>
      if c = rbraceChar then some ([], cs')
      else if c = quoteChar then
        match parseStrBody cs' with
        | none => none
        | some (k, rest1) =>
          match skipWs rest1 with
          | ':' :: rest2 =>
            match parseVal f rest2 with
            | none => none
            | some (v, rest3) =>
              match skipWs rest3 with
              | ',' :: rest4 =>
                match parseMembers f rest4 with
                | some r => some ((String.mk k, v) :: r.1, r.2)
                | none => none
              | c2 :: rest4 =>
                if c2 = rbraceChar then some ([(String.mk k, v)], rest4) else none
              | [] => none
          | _ => none
      else none

end

/-- `json.loads`: parse a complete document, rejecting trailing garbage. -/
def json_loads (s : String) : Option Json :=
  match parseVal (s.data.length + 2) s.data with
  | some (v, rest) => if skipWs rest = [] then some v else none
  | none => none

/-! ## Cache store

The cache file is `Option String` (`none` = file absent), the in-memory
cache dictionary is an association list in insertion order, matching a
Python `dict` with string keys. -/

/-- Cache dictionary: string keys to JSON values, in insertion order. -/
abbrev CacheMap := List (String × Json)

/-- Association-list lookup (Python `d[k]` / `k in d`). -/
def alookup {α : Type} : List (String × α) → String → Option α
  | [], _ => none
  | (k', v) :: m, k => if k' = k then some v else alookup m k

/-- Python `d[k] = v`: update in place if the key exists, else append. -/
def pyDictSet : CacheMap → String → Json → CacheMap
  | [], k, v => [(k, v)]
  | (k', v') :: m, k, v => if k' = k then (k, v) :: m else (k', v') :: pyDictSet m k v

/-- Total stand-in for Python dict indexing; at every use site below the key
has just been inserted, so the default is unreachable. -/
def getItem (m : CacheMap) (k : String) : Json := (alookup m k).getD Json.null

/-- `load_cache`: read and parse the cache file; a missing file or a parse
failure is caught by the bare `except` and yields the empty dict. -/
def load_cache (file : Option String) : Json :=
  match file with
  | none => Json.obj []
  | some contents => (json_loads contents).getD (Json.obj [])

/-- `save_cache`: serialize the whole mapping and overwrite the file. -/
def save_cache (cache : CacheMap) (_file : Option String) : Option String :=
  some (json_dumps (Json.obj cache))

/-- View a JSON value as a dict; `none` models the `AttributeError` /
`TypeError` a non-dict would raise at the use sites. -/
def asObj : Json → Option CacheMap
  | .obj m => some m
  | _ => none

/-- View a JSON value as a string. -/
def asStr : Json → Option String
  | .str s => some s
  | _ => none

/-- Externally visible effects of one cache-consulting call, in order. -/
inductive Action where
  | sleep : Action
  | netGet : String → Action
  | saveFile : Action
deriving DecidableEq

/-- Result of one fetch-through-cache call: the returned value, the updated
in-memory dict, the mapping persisted by `save_cache` (if any), and the
effect trace. -/
structure FetchResult where
  value : Json
  cache : CacheMap
  saved : Option CacheMap
  trace : List Action

/-- `make_url_request_using_cache(url, cache)`: on a hit return the cached
value with no effects; on a miss sleep, perform the request, store the
response text under the url, persist the whole mapping, and return it. -/
def make_url_request_using_cache (net : String → String) (url : String)
    (cache : CacheMap) : FetchResult :=
  match alookup cache url with
  | some v => ⟨v, cache, none, []⟩
  | none =>
    let cache' := pyDictSet cache url (Json.str (net url))
    ⟨getItem cache' url, cache', some cache', [Action.sleep, Action.netGet url, Action.saveFile]⟩

/-! ## Site records and the places API client -/

/-- `NationalSite` record. -/
structure NationalSite where
  category : String
  name : String
  address : String
  zipcode : String
  phone : String
  url : Option String

/-- Python `s.strip(c)` for a single strip character. -/
def stripChar (c : Char) (s : String) : String :=
  String.mk (((s.data.dropWhile (· = c)).reverse.dropWhile (· = c)).reverse)

/-- `NationalSite.__init__`, which strips newlines off the phone field. -/
def NationalSite.make (category name address zipcode phone : String)
    (url : Option String) : NationalSite :=
  ⟨category, name, address, zipcode, stripChar '\n' phone, url⟩

/-- The fixed MapQuest query dictionary built in `make_request_with_cache_api`. -/
structure ApiParams where
  key : String
  origin : String
  radius : Nat
  maxMatches : Nat
  ambiguities : String
  outFormat : String
deriving DecidableEq

/-- `params = {'key': MAP_KEY, 'origin': site_object.zipcode, 'radius': 10,
'maxMatches': 10, 'ambiguities': 'ignore', 'outFormat': 'json'}`. -/
def mapquestParams (mapKey : String) (site_object : NationalSite) : ApiParams :=
  ⟨mapKey, site_object.zipcode, 10, 10, "ignore", "json"⟩

/-- `make_request_with_cache_api(base_url, site_object)` at the dict level:
the cache key is the site NAME; on a miss the request is performed with no
sleep, stored, persisted, and returned. -/
def make_request_with_cache_api (netApi : String → ApiParams → Json) (mapKey : String)
    (base_url : String) (site_object : NationalSite) (cache : CacheMap) : FetchResult :=
  let params := mapquestParams mapKey site_object
  match alookup cache site_object.name with
  | some v => ⟨v, cache, none, []⟩
  | none =>
    let response := netApi base_url params
    let cache' := pyDictSet cache site_object.name response
    ⟨getItem cache' site_object.name, cache', some cache',
      [Action.netGet base_url, Action.saveFile]⟩

/-! ## Static state table and the state prompt -/

/-- The module-level `states` dict, in source order. -/
def statesList : List (String × String) :=
  [("alaska", "ak"), ("alabama", "al"), ("arkansas", "ar"), ("american samoa", "as"),
   ("arizona", "az"), ("california", "ca"), ("colorado", "co"), ("connecticut", "ct"),
   ("district of columbia", "dc"), ("delaware", "de"), ("florida", "fl"), ("georgia", "ga"),
   ("guam", "gu"), ("hawaii", "hi"), ("iowa", "ia"), ("idaho", "id"), ("illinois", "il"),
   ("indiana", "in"), ("kansas", "ks"), ("kentucky", "ky"), ("louisiana", "la"),
   ("massachusetts", "ma"), ("maryland", "md"), ("maine", "me"), ("michigan", "mi"),
   ("minnesota", "mn"), ("missouri", "mo"), ("northern mariana islands", "mp"),
   ("mississippi", "ms"), ("montana", "mt"), ("national", "na"), ("north carolina", "nc"),
   ("north dakota", "nd"), ("nebraska", "ne"), ("new hampshire", "nh"), ("new jersey", "nj"),
   ("new mexico", "nm"), ("nevada", "nv"), ("new york", "ny"), ("ohio", "oh"),
   ("oklahoma", "ok"), ("oregon", "or"), ("pennsylvania", "pa"), ("puerto rico", "pr"),
   ("rhode island", "ri"), ("south carolina", "sc"), ("south dakota", "sd"),
   ("tennessee", "tn"), ("texas", "tx"), ("utah", "ut"), ("virginia", "va"),
   ("virgin islands", "vi"), ("vermont", "vt"), ("washington", "wa"), ("wisconsin", "wi"),
   ("west virginia", "wv"), ("wyoming", "wy")]

/-- The `base_url` local of the `__main__` block (and of the builders). -/
def nps_base_url : String := "https://www.nps.gov"

/-- Python `str.lower()` on one character, over the ASCII range the program
handles. -/
def pyLowerChar (c : Char) : Char :=
  if 65 ≤ c.toNat && c.toNat ≤ 90 then Char.ofNat (c.toNat + 32) else c

/-- Python `str.lower()`. -/
def pyLower (s : String) : String := String.mk (s.data.map pyLowerChar)

/-- Python `str.endswith(suffix)`. -/
def strEndsWith (s suffix : String) : Bool := List.isSuffixOf suffix.data s.data

/-- Outcome of one pass of the state prompt. -/
inductive StateResolution where
  | url : String → StateResolution
  | exitProgram : StateResolution
  | reprompt : StateResolution
deriving DecidableEq

/-- The state-prompt branch of `__main__` on the already-lowercased input:
a two-letter abbreviation or a full state name from the static table is
turned into `base_url + '/' + abbrev + '/' + '/index.htm'`; `'exit'`
terminates; anything else reprompts with an error. -/
def resolveStateLower (state : String) : StateResolution :=
  if state.length = 2 && statesList.any (fun p => p.2 == state) then
    .url (nps_base_url ++ "/" ++ state ++ "/" ++ "/index.htm")
  else if state == "exit" then .exitProgram
  else if statesList.any (fun p => p.1 == state) then
    .url (nps_base_url ++ "/" ++ ((alookup statesList state).getD "") ++ "/" ++ "/index.htm")
  else .reprompt

/-- The state prompt: the raw input is lowercased first. -/
def resolveState (input : String) : StateResolution :=
  resolveStateLower (pyLower input)

/-- Labels `i, i+1, ...` paired with the list elements. -/
def numberFrom {α : Type} : Nat → List α → List (Nat × α)
  | _, [] => []
  | i, s :: ss => (i, s) :: numberFrom (i + 1) ss

/-- The site-listing loop of `__main__`: `i = 1; while i <= len(sites):
for site in sites: print('[', i, ']', ...); i += 1`.  For a nonempty list
the while-body runs exactly once (the inner for-loop leaves
`i = len + 1 > len`); for an empty list it never runs. -/
def printSiteListing {α : Type} (sites : List α) : List (Nat × α) :=
  if 1 ≤ sites.length then numberFrom 1 sites else []

/-! ## Detail-choice prompt -/

/-- Outcome of one pass of the detail-choice prompt. -/
inductive DetailOutcome (α : Type) where
  | back : DetailOutcome α
  | exitProgram : DetailOutcome α
  | query : α → Nat → DetailOutcome α
  | reprompt : DetailOutcome α
  | crash : DetailOutcome α
deriving DecidableEq

/-- ASCII fragment of Python `str.isnumeric`. -/
def pyIsNumeric (s : String) : Bool := !s.isEmpty && s.data.all isDigitChar

/-- Python `int()` on a digit string. -/
def pyStrToNat (s : String) : Nat := digitsVal s.data

/-- Python list indexing with negative-index wraparound; `none` models the
`IndexError`. -/
def pyNegIndex {α : Type} (xs : List α) (i : Int) : Option α :=
  if 0 ≤ i then xs.get? i.toNat
  else if i.natAbs ≤ xs.length then xs.get? (xs.length - i.natAbs)
  else none

/-- One pass of the detail-choice prompt of `__main__`: lowercase the
input; `'back'` and `'exit'` leave; a numeric choice is accepted whenever
`int(option) <= len(sites_list)` (there is no lower bound, so `0` resolves
to `sites_list[-1]`, the LAST site); everything else reprompts. -/
def detailStep {α : Type} (sites : List α) (input : String) : DetailOutcome α :=
  let option := pyLower input
  if option == "back" then .back
  else if option == "exit" then .exitProgram
  else if pyIsNumeric option then
    if pyStrToNat option ≤ sites.length then
      match pyNegIndex sites ((pyStrToNat option : Int) - 1) with
      | some site => .query site (pyStrToNat option)
      | none => .crash
    else .reprompt
  else .reprompt

/-! ## Parsed HTML documents

Model of the BeautifulSoup document trees the extractor walks.  `find`
searches descendants in document (preorder) order; class and `itemprop`
selection is modelled as exact attribute equality (BeautifulSoup's
token-based class matching restricted to the literal class strings the
source uses). -/

/-- A parsed HTML node: an element with tag, attributes and children, or a
text node. -/
inductive HNode where
  | elem : String → List (String × String) → List HNode → HNode
  | text : String → HNode

/-- Attribute lookup on an element. -/
def HNode.attr : HNode → String → Option String
  | .elem _ attrs _, k => alookup attrs k
  | .text _, _ => none

/-- Tag test. -/
def tagIs : HNode → String → Bool
  | .elem t _ _, tag => t == tag
  | .text _, _ => false

mutual

/-- `get_text()`: concatenated text of all descendants, in order. -/
def HNode.getText : HNode → String
  | .text s => s
  | .elem _ _ children => getTextList children

/-- Concatenated text of a list of nodes. -/
def getTextList : List HNode → String
  | [] => ""
  | n :: ns => HNode.getText n ++ getTextList ns

end

mutual

/-- First node satisfying the predicate in a forest, preorder. -/
def findFirst (p : HNode → Bool) : List HNode → Option HNode
  | [] => none
  | n :: ns =>
    if p n then some n
    else
      match findInside p n with
      | some r => some r
      | none => findFirst p ns

/-- `find(...)`: first descendant of a node satisfying the predicate. -/
def findInside (p : HNode → Bool) : HNode → Option HNode
  | .text _ => none
  | .elem _ _ children => findFirst p children

end

mutual

/-- All nodes satisfying the predicate in a forest, preorder. -/
def findAllList (p : HNode → Bool) : List HNode → List HNode
  | [] => []
  | n :: ns => (if p n then [n] else []) ++ findAllIn p n ++ findAllList p ns

/-- `find_all(...)`: all descendants of a node satisfying the predicate. -/
def findAllIn (p : HNode → Bool) : HNode → List HNode
  | .text _ => []
  | .elem _ _ children => findAllList p children

end

/-- `find_all(tag, recursive=False)`: direct children with the tag. -/
def childrenTagged (tag : String) : HNode → List HNode
  | .text _ => []
  | .elem _ _ children => children.filter (fun n => tagIs n tag)

/-- Selector `find(tag)`. -/
def selTag (tag : String) (n : HNode) : Bool := tagIs n tag

/-- Selector `find(tag, class_=cls)`. -/
def selTagClass (tag cls : String) (n : HNode) : Bool :=
  tagIs n tag && n.attr "class" == some cls

/-- Selector `find(tag, key=val)` for a semantic attribute (`itemprop`,
`id`). -/
def selTagAttr (tag key val : String) (n : HNode) : Bool :=
  tagIs n tag && n.attr key == some val

/-- Python `str.strip()` over the ASCII whitespace the pages contain. -/
def pyStrip (s : String) : String :=
  String.mk (((s.data.dropWhile isWsChar).reverse.dropWhile isWsChar).reverse)

/-! ## HTML field extractor (`get_site_instance`) -/

/-- `park_soup.find('div', class_='Hero-titleContainer clearfix')`. -/
def heroParent (park_soup : HNode) : Option HNode :=
  findInside (selTagClass "div" "Hero-titleContainer clearfix") park_soup

/-- The category lookup chain inside the first `try`. -/
def categoryLookup (park_parent : HNode) : Option String :=
  (findInside (selTagClass "div" "Hero-designationContainer") park_parent).bind
    fun d => (findInside (selTagClass "span" "Hero-designation") d).map HNode.getText

/-- `park_soup.find('div', class_='ParkFooter')`. -/
def footerParent (park_soup : HNode) : Option HNode :=
  findInside (selTagClass "div" "ParkFooter") park_soup

/-- The zip-code lookup chain. -/
def zipLookup (park_soup : HNode) : Option String :=
  (footerParent park_soup).bind fun footer =>
    ((findInside (selTagClass "p" "adr") footer).bind
      fun adr => (findInside (selTagClass "span" "postal-code") adr).map HNode.getText)

/-- The address-locality lookup chain. -/
def localityLookup (park_soup : HNode) : Option String :=
  (footerParent park_soup).bind fun footer =>
    ((findInside (selTagClass "p" "adr") footer).bind
      fun adr => (findInside (selTagAttr "span" "itemprop" "addressLocality") adr).map
        HNode.getText)

/-- The address-region lookup chain. -/
def regionLookup (park_soup : HNode) : Option String :=
  (footerParent park_soup).bind fun footer =>
    ((findInside (selTagClass "p" "adr") footer).bind
      fun adr => (findInside (selTagAttr "span" "itemprop" "addressRegion") adr).map
        HNode.getText)

/-- The phone lookup chain. -/
def phoneLookup (park_soup : HNode) : Option String :=
  (footerParent park_soup).bind fun footer =>
    (findInside (selTagClass "span" "tel") footer).map HNode.getText

/-- The extraction part of `get_site_instance` on the parsed page.  `none`
models the uncaught exception when the hero container or the name anchor is
missing (those two lookups are not wrapped in `try`).  Each of the four
optional fields is wrapped in its own `try/except`; only the category has
the additional empty-after-strip fallback, the zip code keeps its stripped
text even when empty, address and phone keep their raw text. -/
def get_site_instance_extract (park_soup : HNode) : Option NationalSite :=
  match heroParent park_soup with
  | none => none
  | some park_parent =>
    match (findInside (selTagClass "a" "Hero-title") park_parent).map HNode.getText with
    | none => none
    | some park_name =>
      let park_category :=
        match categoryLookup park_parent with
        | some t => if pyStrip t = "" then "Not found category" else pyStrip t
        | none => "Not found category"
      let park_zip_code :=
        match zipLookup park_soup with
        | some t => pyStrip t
        | none => "Not found zipcode"
      let park_address :=
        match localityLookup park_soup, regionLookup park_soup with
        | some a, some b => a ++ ", " ++ b
        | _, _ => "Not found address"
      let park_phone :=
        match phoneLookup park_soup with
        | some t => t
        | none => "Not found phone number"
      some (NationalSite.make park_category park_name park_address park_zip_code
        park_phone none)

/-! ## Site directory builder (`build_state_url_dict`) -/

/-- The per-`li` loop of `build_state_url_dict`; `none` models the uncaught
exception when an entry has no anchor or no `href`. -/
def statesFold : List HNode → Option (List (String × String))
  | [] => some []
  | li :: lis =>
    match findInside (selTag "a") li with
    | none => none
    | some state_link_tag =>
      match state_link_tag.attr "href" with
      | none => none
      | some state_path =>
        match statesFold lis with
        | some rest =>
            some ((pyLower (HNode.getText li), nps_base_url ++ state_path) :: rest)
        | none => none

/-- The parse-to-mapping part of `build_state_url_dict` on the parsed index
page: locate the dropdown list, then map each direct `li` child to
(lowercased text, absolute url), in document order. -/
def build_state_url_dict_doc (soup : HNode) : Option (List (String × String)) :=
  match findInside (selTagClass "ul" "dropdown-menu SearchBar-keywordSearch") soup with
  | none => none
  | some state_parent => statesFold (childrenTagged "li" state_parent)

/-! ## Whole-operation state threading

Each cache-consulting operation of the source begins with
`CACHE_DICT = load_cache()` (resp. `cache_file = load_cache()`).  Without a
`global` declaration that assignment binds a fresh LOCAL variable, so the
module-level `CACHE_DICT` global is neither read nor written anywhere; the
operations below are therefore defined at the level of the cache-file
contents alone, and `ProgState` wrappers carry the untouched global. -/

/-- Mutable program state: the cache-file contents and the module-level
`CACHE_DICT` global. -/
structure ProgState where
  file : Option String
  globalCache : CacheMap

/-- `load_cache()` followed by `make_url_request_using_cache(url, cache)`,
at the file level: returns the value, the resulting file contents and the
effect trace; `none` when the loaded cache is not a dict (then
`cache.keys()` would raise). -/
def cachedPageText (net : String → String) (url : String) (file : Option String) :
    Option (Json × Option String × List Action) :=
  match asObj (load_cache file) with
  | none => none
  | some cache =>
    let r := make_url_request_using_cache net url cache
    some (r.value,
      (match r.saved with
       | some m => save_cache m file
       | none => file),
      r.trace)

/-- `get_site_instance(site_url)` at the file level: reload the cache,
fetch the page through it, parse, extract. -/
def get_site_instance_core (parse : String → HNode) (net : String → String)
    (site_url : String) (file : Option String) :
    Option NationalSite × Option String × List Action :=
  match cachedPageText net site_url file with
  | none => (none, file, [])
  | some (v, file', tr) =>
    match asStr v with
    | none => (none, file', tr)
    | some url_text => (get_site_instance_extract (parse url_text), file', tr)

/-- The per-`h3` loop of `get_sites_for_state`: build each detail url,
extract the site through a sub-fetch (which reloads the cache from the
current file), rebuild the record with the url attached. -/
def sitesLoop (parse : String → HNode) (net : String → String) :
    List HNode → Option String →
    Option (List NationalSite) × Option String × List Action
  | [], file => (some [], file, [])
  | h :: hs, file =>
    match findInside (selTag "a") h with
    | none => (none, file, [])
    | some park_tag =>
      let park_name := HNode.getText park_tag
      match park_tag.attr "href" with
      | none => (none, file, [])
      | some park_path =>
        let park_url := nps_base_url ++ park_path ++ "index.htm"
        match get_site_instance_core parse net park_url file with
        | (none, file1, tr1) => (none, file1, tr1)
        | (some p, file1, tr1) =>
          let site := NationalSite.make p.category park_name p.address p.zipcode
            p.phone (some park_url)
          match sitesLoop parse net hs file1 with
          | (some rest, file2, tr2) => (some (site :: rest), file2, tr1 ++ tr2)
          | (none, file2, tr2) => (none, file2, tr1 ++ tr2)

/-- `get_sites_for_state(state_url)` at the file level. -/
def get_sites_for_state_core (parse : String → HNode) (net : String → String)
    (state_url : String) (file : Option String) :
    Option (List NationalSite) × Option String × List Action :=
  match cachedPageText net state_url file with
  | none => (none, file, [])
  | some (v, file1, tr1) =>
    match asStr v with
    | none => (none, file1, tr1)
    | some url_text =>
      match findInside (selTagAttr "div" "id" "parkListResults") (parse url_text) with
      | none => (none, file1, tr1)
      | some park_parent =>
        match sitesLoop parse net (findAllIn (selTag "h3") park_parent) file1 with
        | (res, file2, tr2) => (res, file2, tr1 ++ tr2)

/-- `build_state_url_dict()` at the file level: reload the cache, fetch the
index page `base_url + '/index.htm'` through it, parse to the mapping. -/
def build_state_url_dict_core (parse : String → HNode) (net : String → String)
    (file : Option String) :
    Option (List (String × String)) × Option String × List Action :=
  match cachedPageText net (nps_base_url ++ "/index.htm") file with
  | none => (none, file, [])
  | some (v, file', tr) =>
    match asStr v with
    | none => (none, file', tr)
    | some url_text => (build_state_url_dict_doc (parse url_text), file', tr)

/-- `make_request_with_cache_api(base_url, site_object)` at the file level:
`cache_file = load_cache()`, then the keyed-by-name fetch. -/
def make_request_with_cache_api_core (netApi : String → ApiParams → Json)
    (mapKey : String) (base_url : String) (site_object : NationalSite)
    (file : Option String) : Option Json × Option String × List Action :=
  match asObj (load_cache file) with
  | none => (none, file, [])
  | some cache_file =>
    let r := make_request_with_cache_api netApi mapKey base_url site_object cache_file
    (some r.value,
      (match r.saved with
       | some m => save_cache m file
       | none => file),
      r.trace)

/-- `get_site_instance` over the full program state. -/
def get_site_instance_run (parse : String → HNode) (net : String → String)
    (site_url : String) (st : ProgState) :
    Option NationalSite × ProgState × List Action :=
  ((get_site_instance_core parse net site_url st.file).1,
    ⟨(get_site_instance_core parse net site_url st.file).2.1, st.globalCache⟩,
    (get_site_instance_core parse net site_url st.file).2.2)

/-- `get_sites_for_state` over the full program state. -/
def get_sites_for_state_run (parse : String → HNode) (net : String → String)
    (state_url : String) (st : ProgState) :
    Option (List NationalSite) × ProgState × List Action :=
  ((get_sites_for_state_core parse net state_url st.file).1,
    ⟨(get_sites_for_state_core parse net state_url st.file).2.1, st.globalCache⟩,
    (get_sites_for_state_core parse net state_url st.file).2.2)

/-- `build_state_url_dict` over the full program state. -/
def build_state_url_dict_run (parse : String → HNode) (net : String → String)
    (st : ProgState) :
    Option (List (String × String)) × ProgState × List Action :=
  ((build_state_url_dict_core parse net st.file).1,
    ⟨(build_state_url_dict_core parse net st.file).2.1, st.globalCache⟩,
    (build_state_url_dict_core parse net st.file).2.2)

/-- `make_request_with_cache_api` over the full program state. -/
def make_request_with_cache_api_run (netApi : String → ApiParams → Json)
    (mapKey : String) (base_url : String) (site_object : NationalSite)
    (st : ProgState) : Option Json × ProgState × List Action :=
  ((make_request_with_cache_api_core netApi mapKey base_url site_object st.file).1,
    ⟨(make_request_with_cache_api_core netApi mapKey base_url site_object st.file).2.1,
      st.globalCache⟩,
    (make_request_with_cache_api_core netApi mapKey base_url site_object st.file).2.2)

/-! ## Nearby-places client (`make_nearby_instance_list`) -/

/-- Python `j[k]` on a JSON value; `none` models the `KeyError` /
`TypeError`. -/
def jGet (j : Json) (k : String) : Option Json :=
  match j with
  | .obj ms => alookup ms k
  | _ => none

/-- `j[k].strip()` requires the field to exist and be a string. -/
def jGetStr (j : Json) (k : String) : Option String := (jGet j k).bind asStr

/-- `NearbyPlace` record; `name` is stored as fetched, without type
restriction. -/
structure NearbyPlace where
  name : Json
  category : String
  street_address : String
  city_name : String

/-- `member['fields']['group_sic_code_name'].strip()`. -/
def primaryCategoryLookup (member : Json) : Option String :=
  (jGet member "fields").bind fun f => jGetStr f "group_sic_code_name"

/-- `member['fields']['group_sic_code_name_ext'].strip()`. -/
def extCategoryLookup (member : Json) : Option String :=
  (jGet member "fields").bind fun f => jGetStr f "group_sic_code_name_ext"

/-- The category of one result item: the primary field (empty after strip
falls back to `'no category'`); on any failure the `except` branch reads
the alternate field with NO further protection and NO empty-string
fallback, so `none` (a propagated exception) results when both lookups
fail. -/
def categoryOfMember (member : Json) : Option String :=
  match primaryCategoryLookup member with
  | some s => some (if pyStrip s = "" then "no category" else pyStrip s)
  | none =>
    match extCategoryLookup member with
    | some s => some (pyStrip s)
    | none => none

/-- A fields entry with full `try/except` protection and empty-string
fallback (used for street address and city). -/
def fieldsStrOr (member : Json) (key fallback : String) : String :=
  match (jGet member "fields").bind (fun f => jGetStr f key) with
  | some s => if pyStrip s = "" then fallback else pyStrip s
  | none => fallback

/-- One result item to a `NearbyPlace`; `none` models the uncaught
exceptions (`member['name']` missing, or both category lookups failing). -/
def placeOfMember (member : Json) : Option NearbyPlace :=
  match jGet member "name" with
  | none => none
  | some nearby_name =>
    match categoryOfMember member with
    | none => none
    | some nearby_category =>
      some ⟨nearby_name, nearby_category,
        fieldsStrOr member "address" "no street address",
        fieldsStrOr member "city" "no city"⟩

/-- The per-member loop. -/
def placesFold : List Json → Option (List NearbyPlace)
  | [] => some []
  | m :: ms =>
    match placeOfMember m, placesFold ms with
    | some p, some ps => some (p :: ps)
    | _, _ => none

/-- `make_nearby_instance_list(nearby_dict)`; a missing or non-list
`searchResults` is modelled as failure. -/
def make_nearby_instance_list (nearby_dict : Json) : Option (List NearbyPlace) :=
  match jGet nearby_dict "searchResults" with
  | none => none
  | some (.arr members) => placesFold members
  | some _ => none

/-! ## Concrete example inputs used by counterexamples and witnesses -/

/-- A MapQuest response oracle returning a fixed payload. -/
def exApiNet : String → ApiParams → Json := fun _ _ => Json.str "PLACES"

/-- A page oracle returning a fixed page text. -/
def exPageNet : String → String := fun _ => "PAGE"

/-- A concrete site record. -/
def exSite : NationalSite :=
  NationalSite.make "National Lakeshore" "Sleeping Bear Dunes" "Empire, MI" "49630"
    "231-326-4700" none

/-- The same site name at a different zip code. -/
def exSiteOtherZip : NationalSite :=
  NationalSite.make "National Park" "Sleeping Bear Dunes" "Elsewhere, WY" "82190"
    "307-344-7381" none

/-- A detail page whose postal-code node exists but holds only whitespace. -/
def exZipDoc : HNode :=
  .elem "html" [] [
    .elem "div" [("class", "Hero-titleContainer clearfix")] [
      .elem "a" [("class", "Hero-title")] [.text "Isle Royale"]],
    .elem "div" [("class", "ParkFooter")] [
      .elem "p" [("class", "adr")] [
        .elem "span" [("class", "postal-code")] [.text "  "]]]]

/-- A detail page with only the hero container and title: every optional
lookup fails. -/
def exBareDoc : HNode :=
  .elem "html" [] [
    .elem "div" [("class", "Hero-titleContainer clearfix")] [
      .elem "a" [("class", "Hero-title")] [.text "Isle Royale"]]]

/-- A detail page where every optional lookup succeeds but with degenerate
text: whitespace-only zip, empty locality and region, and a phone of
newlines around spaces. -/
def exFullDoc : HNode :=
  .elem "html" [] [
    .elem "div" [("class", "Hero-titleContainer clearfix")] [
      .elem "a" [("class", "Hero-title")] [.text "Isle Royale"],
      .elem "div" [("class", "Hero-designationContainer")] [
        .elem "span" [("class", "Hero-designation")] [.text " National Park "]]],
    .elem "div" [("class", "ParkFooter")] [
      .elem "p" [("class", "adr")] [
        .elem "span" [("itemprop", "addressLocality")] [.text ""],
        .elem "span" [("itemprop", "addressRegion")] [.text ""],
        .elem "span" [("class", "postal-code")] [.text "  "]],
      .elem "span" [("class", "tel")] [.text "\n  \n"]]]

/-- A concrete index page for the state dropdown. -/
def exIndexDoc : HNode :=
  .elem "html" [] [
    .elem "ul" [("class", "dropdown-menu SearchBar-keywordSearch")] [
      .elem "li" [] [
        .elem "a" [("href", "/state/mi/index.htm")] [.text "Michigan"]]]]

/-- An API response whose single result item has an empty `fields` object:
both category lookups fail. -/
def exNearbyDict : Json :=
  .obj [("searchResults", .arr [
    .obj [("name", .str "Glen Arbor Store"), ("fields", .obj [])]])]

/-- A result item whose primary category is present. -/
def exMemberPrimary : Json :=
  .obj [("name", .str "A"), ("fields", .obj [("group_sic_code_name", .str " Cafe ")])]

/-- A result item with only the alternate category field, holding blank
text. -/
def exMemberExt : Json :=
  .obj [("name", .str "B"), ("fields", .obj [("group_sic_code_name_ext", .str "  ")])]

/-! ## Lemmas: whitespace, literals, strings, numbers -/

theorem skipWs_cons_of_not {c : Char} (h : isWsChar c = false) (cs : List Char) :
    skipWs (c :: cs) = c :: cs := by
  simp [skipWs, List.dropWhile, h]

theorem skipWs_cons_of_ws {c : Char} (h : isWsChar c = true) (cs : List Char) :
    skipWs (c :: cs) = skipWs cs := by
  simp [skipWs, List.dropWhile, h]

theorem skipWs_cons_space (cs : List Char) : skipWs (' ' :: cs) = skipWs cs :=
  skipWs_cons_of_ws (by decide) cs

theorem dropExact_self : ∀ (p rest : List Char), dropExact p (p ++ rest) = some rest := by
  intro p
  induction p with
  | nil => intro rest; rfl
  | cons c p ih => intro rest; simp [dropExact, ih]

theorem bs_ne_q : backslashChar ≠ quoteChar := by decide

theorem unesc_q : unescChar quoteChar = some quoteChar := by decide

theorem unesc_bs : unescChar backslashChar = some backslashChar := by decide

theorem unesc_n : unescChar 'n' = some '\n' := by decide

theorem unesc_t : unescChar 't' = some '\t' := by decide

theorem unesc_r : unescChar 'r' = some '\r' := by decide

theorem parseStrBody_eq (c : Char) (cs : List Char) :
    parseStrBody (c :: cs) =
      (if c = quoteChar then some ([], cs)
       else if c = backslashChar then
         match cs with
         | [] => none
         | e :: cs' =>
           match unescChar e with
           | some c' =>
             match parseStrBody cs' with
             | some r => some (c' :: r.1, r.2)
             | none => none
           | none => none
       else
         match parseStrBody cs with
         | some r => some (c :: r.1, r.2)
         | none => none) := by
  rw [parseStrBody.eq_def]

theorem parseStrBody_esc : ∀ (cs rest : List Char),
    parseStrBody (escStr cs ++ quoteChar :: rest) = some (cs, rest) := by
  intro cs
  induction cs with
  | nil =>
    intro rest
    rw [show escStr [] ++ quoteChar :: rest = quoteChar :: rest from rfl,
      parseStrBody_eq, if_pos rfl]
  | cons c cs ih =>
    intro rest
    by_cases h1 : c = quoteChar
    · subst h1
      simp [escStr, escChar, parseStrBody_eq, bs_ne_q, unesc_q, ih]
    · by_cases h2 : c = backslashChar
      · subst h2
        simp [escStr, escChar, parseStrBody_eq, bs_ne_q, unesc_bs, ih, h1]
      · by_cases h3 : c = '\n'
        · subst h3
          simp [escStr, escChar, parseStrBody_eq, bs_ne_q, unesc_n, ih, h1, h2]
        · by_cases h4 : c = '\t'
          · subst h4
            simp [escStr, escChar, parseStrBody_eq, bs_ne_q, unesc_t, ih, h1, h2, h3]
          · by_cases h5 : c = '\r'
            · subst h5
              simp [escStr, escChar, parseStrBody_eq, bs_ne_q, unesc_r, ih, h1, h2, h3, h4]
            · simp [escStr, escChar, parseStrBody_eq, ih, h1, h2, h3, h4, h5]

theorem natChars_ne_nil (n : Nat) : natChars n ≠ [] := by
  rw [natChars.eq_def]
  split <;> simp

theorem digitChar_toNat {d : Nat} (h : d < 10) : (digitChar d).toNat = 48 + d := by
  interval_cases d <;> decide

theorem isDigitChar_digitChar {d : Nat} (h : d < 10) : isDigitChar (digitChar d) = true := by
  interval_cases d <;> decide

theorem natChars_digits (n : Nat) : ∀ c ∈ natChars n, isDigitChar c = true := by
  induction n using Nat.strong_induction_on with
  | _ n ih =>
    rw [natChars.eq_def]
    split
    · next h =>
      intro c hc
      simp only [List.mem_singleton] at hc
      subst hc
      exact isDigitChar_digitChar h
    · next h =>
      intro c hc
      rw [List.mem_append] at hc
      rcases hc with hc | hc
      · exact ih (n / 10) (by omega) c hc
      · simp only [List.mem_singleton] at hc
        subst hc
        exact isDigitChar_digitChar (by omega)

theorem digitsVal_append_digit (ds : List Char) (c : Char) :
    digitsVal (ds ++ [c]) = 10 * digitsVal ds + (c.toNat - 48) := by
  simp [digitsVal, List.foldl_append]

theorem digitsVal_natChars (n : Nat) : digitsVal (natChars n) = n := by
  induction n using Nat.strong_induction_on with
  | _ n ih =>
    rw [natChars.eq_def]
    split
    · next h =>
      simp [digitsVal, List.foldl, digitChar_toNat h]
    · next h =>
      rw [digitsVal_append_digit, ih (n / 10) (by omega),
        digitChar_toNat (show n % 10 < 10 by omega)]
      omega

/-- The first character of the remaining input does not satisfy `p`. -/
def headFails (p : Char → Bool) : List Char → Prop
  | [] => True
  | c :: _ => p c = false

theorem takeWhile_all_append {p : Char → Bool} : ∀ (ds rest : List Char),
    (∀ c ∈ ds, p c = true) → headFails p rest →
    (ds ++ rest).takeWhile p = ds ∧ (ds ++ rest).dropWhile p = rest := by
  intro ds
  induction ds with
  | nil =>
    intro rest _ hr
    cases rest with
    | nil => exact ⟨rfl, rfl⟩
    | cons c cs =>
      have hc : p c = false := hr
      constructor
      · simp [List.takeWhile, hc]
      · simp [List.dropWhile, hc]
  | cons d ds ih =>
    intro rest hd hr
    have hpd : p d = true := hd d (by simp)
    have hrec := ih rest (fun c hc => hd c (by simp [hc])) hr
    constructor
    · simp [List.takeWhile, hpd, hrec.1]
    · simp [List.dropWhile, hpd, hrec.2]

theorem parseNatNum_natChars (n : Nat) (rest : List Char)
    (hr : headFails isDigitChar rest) :
    parseNatNum (natChars n ++ rest) = some (n, rest) := by
  obtain ⟨ht, hd⟩ := takeWhile_all_append (natChars n) rest (natChars_digits n) hr
  unfold parseNatNum
  rw [ht, hd, if_neg (by simp [natChars_ne_nil n]), digitsVal_natChars]

theorem natChars_head (n : Nat) : ∃ d t, natChars n = digitChar d :: t ∧ d < 10 := by
  induction n using Nat.strong_induction_on with
  | _ n ih =>
    rw [natChars.eq_def]
    split
    · next h => exact ⟨n, [], rfl, h⟩
    · next h =>
      obtain ⟨d, t, heq, hd⟩ := ih (n / 10) (by omega)
      exact ⟨d, t ++ [digitChar (n % 10)], by rw [heq, List.cons_append], hd⟩

theorem digitChar_facts {d : Nat} (h : d < 10) :
    isWsChar (digitChar d) = false ∧ digitChar d ≠ quoteChar ∧
    digitChar d ≠ lbraceChar ∧ digitChar d ≠ '[' ∧ digitChar d ≠ 'n' ∧
    digitChar d ≠ 't' ∧ digitChar d ≠ 'f' ∧ digitChar d ≠ '-' ∧
    digitChar d ≠ ']' ∧ digitChar d ≠ ',' ∧ digitChar d ≠ rbraceChar := by
  interval_cases d <;> decide

/-! ## Lemmas: one-step parser evaluation -/

theorem parseVal_succ_quote (f : Nat) (cs : List Char) :
    parseVal (f + 1) (quoteChar :: cs) =
      match parseStrBody cs with
      | some r => some (Json.str (String.mk r.1), r.2)
      | none => none := by
  simp only [parseVal]
  rw [skipWs_cons_of_not (by decide)]
  simp

theorem lb_ne_q : lbraceChar ≠ quoteChar := by decide

theorem lbrack_ne_q : ('[' : Char) ≠ quoteChar := by decide

theorem lbrack_ne_lb : ('[' : Char) ≠ lbraceChar := by decide

theorem n_ne_q : ('n' : Char) ≠ quoteChar := by decide

theorem n_ne_lb : ('n' : Char) ≠ lbraceChar := by decide

theorem t_ne_q : ('t' : Char) ≠ quoteChar := by decide

theorem t_ne_lb : ('t' : Char) ≠ lbraceChar := by decide

theorem f_ne_q : ('f' : Char) ≠ quoteChar := by decide

theorem f_ne_lb : ('f' : Char) ≠ lbraceChar := by decide

theorem minus_ne_q : ('-' : Char) ≠ quoteChar := by decide

theorem minus_ne_lb : ('-' : Char) ≠ lbraceChar := by decide

theorem parseVal_succ_lbrace (f : Nat) (cs : List Char) :
    parseVal (f + 1) (lbraceChar :: cs) =
      match parseMembers f cs with
      | some r => some (Json.obj r.1, r.2)
      | none => none := by
  simp only [parseVal]
  rw [skipWs_cons_of_not (by decide)]
  simp [lb_ne_q]

theorem parseVal_succ_lbracket (f : Nat) (cs : List Char) :
    parseVal (f + 1) ('[' :: cs) =
      match parseItems f cs with
      | some r => some (Json.arr r.1, r.2)
      | none => none := by
  simp only [parseVal]
  rw [skipWs_cons_of_not (by decide)]
  simp [lbrack_ne_q, lbrack_ne_lb]

theorem parseVal_succ_null (f : Nat) (rest : List Char) :
    parseVal (f + 1) (("null").data ++ rest) = some (Json.null, rest) := by
  show parseVal (f + 1) ('n' :: 'u' :: 'l' :: 'l' :: rest) = some (Json.null, rest)
  simp only [parseVal]
  rw [skipWs_cons_of_not (by decide)]
  simp [dropExact, n_ne_q, n_ne_lb]

theorem parseVal_succ_true (f : Nat) (rest : List Char) :
    parseVal (f + 1) (("true").data ++ rest) = some (Json.bool true, rest) := by
  show parseVal (f + 1) ('t' :: 'r' :: 'u' :: 'e' :: rest) = some (Json.bool true, rest)
  simp only [parseVal]
  rw [skipWs_cons_of_not (by decide)]
  simp [dropExact, t_ne_q, t_ne_lb]

theorem parseVal_succ_false (f : Nat) (rest : List Char) :
    parseVal (f + 1) (("false").data ++ rest) = some (Json.bool false, rest) := by
  show parseVal (f + 1) ('f' :: 'a' :: 'l' :: 's' :: 'e' :: rest) =
    some (Json.bool false, rest)
  simp only [parseVal]
  rw [skipWs_cons_of_not (by decide)]
  simp [dropExact, f_ne_q, f_ne_lb]

theorem parseVal_succ_minus (f : Nat) (cs : List Char) :
    parseVal (f + 1) ('-' :: cs) =
      match parseNatNum cs with
      | some r => some (Json.num (-(r.1 : Int)), r.2)
      | none => none := by
  simp only [parseVal]
  rw [skipWs_cons_of_not (by decide)]
  simp [minus_ne_q, minus_ne_lb]

theorem parseVal_succ_digit {d : Nat} (h : d < 10) (f : Nat) (cs : List Char) :
    parseVal (f + 1) (digitChar d :: cs) =
      match parseNatNum (digitChar d :: cs) with
      | some r => some (Json.num (r.1 : Int), r.2)
      | none => none := by
  obtain ⟨f1, f2, f3, f4, f5, f6, f7, f8, f9, f10, f11⟩ := digitChar_facts h
  simp only [parseVal]
  rw [skipWs_cons_of_not f1]
  simp [f2, f3, f4, f5, f6, f7, f8, isDigitChar_digitChar h]

theorem parseVal_sp (f : Nat) (cs : List Char) :
    parseVal f (' ' :: cs) = parseVal f cs := by
  cases f with
  | zero => rfl
  | succ f =>
    simp only [parseVal]
    rw [skipWs_cons_space]

theorem parseItems_sp (f : Nat) (cs : List Char) :
    parseItems f (' ' :: cs) = parseItems f cs := by
  cases f with
  | zero => rfl
  | succ f =>
    simp only [parseItems]
    rw [skipWs_cons_space]

theorem parseMembers_sp (f : Nat) (cs : List Char) :
    parseMembers f (' ' :: cs) = parseMembers f cs := by
  cases f with
  | zero => rfl
  | succ f =>
    simp only [parseMembers]
    rw [skipWs_cons_space]

/-! ## Lemmas: heads and lengths of rendered values -/

theorem renderJson_head (v : Json) : ∃ c t, renderJson v = c :: t ∧ isWsChar c = false ∧
    c ≠ ']' ∧ c ≠ ',' ∧ c ≠ rbraceChar := by
  cases v with
  | null =>
    exact ⟨'n', ['u', 'l', 'l'], rfl, by decide, by decide, by decide, by decide⟩
  | bool b =>
    cases b with
    | false =>
      exact ⟨'f', ['a', 'l', 's', 'e'], rfl, by decide, by decide, by decide, by decide⟩
    | true =>
      exact ⟨'t', ['r', 'u', 'e'], rfl, by decide, by decide, by decide, by decide⟩
  | num i =>
    by_cases h : i < 0
    · exact ⟨'-', natChars i.natAbs, by simp [renderJson, intChars, h], by decide,
        by decide, by decide, by decide⟩
    · obtain ⟨d, t, heq, hd⟩ := natChars_head i.toNat
      obtain ⟨f1, _, _, _, _, _, _, _, f9, f10, f11⟩ := digitChar_facts hd
      exact ⟨digitChar d, t, by simp [renderJson, intChars, h, heq], f1, f9, f10, f11⟩
  | str s =>
    exact ⟨quoteChar, escStr s.data ++ [quoteChar], by simp [renderJson, renderStr],
      by decide, by decide, by decide, by decide⟩
  | arr xs =>
    exact ⟨'[', renderItems xs ++ [']'], by simp [renderJson], by decide, by decide,
      by decide, by decide⟩
  | obj ms =>
    exact ⟨lbraceChar, renderMembers ms ++ [rbraceChar], by simp [renderJson], by decide,
      by decide, by decide, by decide⟩

theorem renderJson_length_pos (v : Json) : 0 < (renderJson v).length := by
  obtain ⟨c, t, heq, -⟩ := renderJson_head v
  simp [heq]

theorem string_mk_data (s : String) : String.mk s.data = s := rfl

theorem q_ne_rb : quoteChar ≠ rbraceChar := by decide

theorem rb_ne_comma : rbraceChar ≠ ',' := by decide

/-! ## The parser inverts the serializer -/

theorem parse_render (f : Nat) :
    (∀ v rest, (renderJson v).length ≤ f → headFails isDigitChar rest →
      parseVal f (renderJson v ++ rest) = some (v, rest)) ∧
    (∀ xs rest, (renderItems xs).length + 1 ≤ f →
      parseItems f (renderItems xs ++ ']' :: rest) = some (xs, rest)) ∧
    (∀ ms rest, (renderMembers ms).length + 1 ≤ f →
      parseMembers f (renderMembers ms ++ rbraceChar :: rest) = some (ms, rest)) := by
  induction f with
  | zero =>
    refine ⟨?_, ?_, ?_⟩
    · intro v rest hle _
      have := renderJson_length_pos v
      omega
    · intro xs rest hle
      omega
    · intro ms rest hle
      omega
  | succ f ih =>
    obtain ⟨ihV, ihI, ihM⟩ := ih
    refine ⟨?_, ?_, ?_⟩
    · -- values
      intro v rest hle hrest
      cases v with
      | null =>
        simp only [renderJson, List.cons_append, List.nil_append]
        exact parseVal_succ_null f rest
      | bool b =>
        cases b with
        | true =>
          simp only [renderJson, List.cons_append, List.nil_append]
          exact parseVal_succ_true f rest
        | false =>
          simp only [renderJson, List.cons_append, List.nil_append]
          exact parseVal_succ_false f rest
      | num i =>
        by_cases h : i < 0
        · have hI : renderJson (.num i) = '-' :: natChars i.natAbs := by
            simp [renderJson, intChars, h]
          rw [hI, List.cons_append, parseVal_succ_minus,
            parseNatNum_natChars _ rest hrest]
          simp [abs_of_neg h]
        · have hI : renderJson (.num i) = natChars i.toNat := by
            simp [renderJson, intChars, h]
          obtain ⟨d, t, heq, hd⟩ := natChars_head i.toNat
          rw [hI, heq, List.cons_append, parseVal_succ_digit hd,
            ← List.cons_append, ← heq, parseNatNum_natChars _ rest hrest]
          simp
          omega
      | str s =>
        have hI : renderJson (.str s) = quoteChar :: (escStr s.data ++ [quoteChar]) := by
          simp [renderJson, renderStr]
        rw [hI, List.cons_append, parseVal_succ_quote, List.append_assoc,
          show [quoteChar] ++ rest = quoteChar :: rest from rfl, parseStrBody_esc]
      | arr xs =>
        have hI : renderJson (.arr xs) = '[' :: (renderItems xs ++ [']']) := by
          simp [renderJson]
        have hlen : (renderItems xs).length + 1 ≤ f := by
          rw [hI] at hle
          simp at hle
          omega
        rw [hI, List.cons_append, parseVal_succ_lbracket, List.append_assoc,
          show [']'] ++ rest = ']' :: rest from rfl, ihI xs rest hlen]
      | obj ms =>
        have hI : renderJson (.obj ms) = lbraceChar :: (renderMembers ms ++ [rbraceChar]) := by
          simp [renderJson]
        have hlen : (renderMembers ms).length + 1 ≤ f := by
          rw [hI] at hle
          simp at hle
          omega
        rw [hI, List.cons_append, parseVal_succ_lbrace, List.append_assoc,
          show [rbraceChar] ++ rest = rbraceChar :: rest from rfl, ihM ms rest hlen]
    · -- array items
      intro xs rest hle
      rcases xs with _ | ⟨x, _ | ⟨y, xs⟩⟩
      · simp only [renderItems, List.nil_append]
        simp only [parseItems]
        rw [skipWs_cons_of_not (by decide)]
        simp
      · have hlen : (renderJson x).length ≤ f := by
          simp only [renderItems] at hle
          omega
        obtain ⟨c, t, heq, hws, hne1, hne2, hne3⟩ := renderJson_head x
        simp only [renderItems]
        rw [heq, List.cons_append]
        simp only [parseItems]
        rw [skipWs_cons_of_not hws]
        simp only [hne1, if_false]
        rw [← List.cons_append, ← heq,
          ihV x (']' :: rest) hlen (show isDigitChar ']' = false by decide)]
        simp [skipWs_cons_of_not (show isWsChar (']' : Char) = false by decide)]
      · have hlen1 : (renderJson x).length ≤ f := by
          simp only [renderItems] at hle
          simp at hle
          omega
        have hlen2 : (renderItems (y :: xs)).length + 1 ≤ f := by
          simp only [renderItems] at hle
          simp at hle
          omega
        obtain ⟨c, t, heq, hws, hne1, hne2, hne3⟩ := renderJson_head x
        simp only [renderItems]
        rw [List.append_assoc, List.cons_append, List.cons_append, heq, List.cons_append]
        simp only [parseItems]
        rw [skipWs_cons_of_not hws]
        simp only [hne1, if_false]
        rw [← List.cons_append, ← heq,
          ihV x (',' :: ' ' :: (renderItems (y :: xs) ++ ']' :: rest)) hlen1
            (show isDigitChar ',' = false by decide)]
        simp [skipWs_cons_of_not (show isWsChar (',' : Char) = false by decide),
          parseItems_sp, ihI (y :: xs) rest hlen2]
    · -- object members
      intro ms rest hle
      rcases ms with _ | ⟨⟨k, v⟩, _ | ⟨m, ms⟩⟩
      · simp only [renderMembers, List.nil_append]
        simp only [parseMembers]
        rw [skipWs_cons_of_not (by decide)]
        simp
      · have hlen : (renderJson v).length ≤ f := by
          simp only [renderMembers, renderStr] at hle
          simp at hle
          omega
        simp only [renderMembers, renderStr, List.cons_append, List.append_assoc,
          List.singleton_append]
        simp only [parseMembers]
        rw [skipWs_cons_of_not (by decide)]
        simp only [q_ne_rb, if_false, eq_self_iff_true, if_true]
        rw [parseStrBody_esc]
        simp [skipWs_cons_of_not (show isWsChar (':' : Char) = false by decide),
          skipWs_cons_of_not (show isWsChar rbraceChar = false by decide), parseVal_sp,
          ihV v (rbraceChar :: rest) hlen (show isDigitChar rbraceChar = false by decide),
          rb_ne_comma, string_mk_data]
      · have hlen1 : (renderJson v).length ≤ f := by
          simp only [renderMembers, renderStr] at hle
          simp at hle
          omega
        have hlen2 : (renderMembers (m :: ms)).length + 1 ≤ f := by
          simp only [renderMembers, renderStr] at hle
          simp at hle
          omega
        simp only [renderMembers, renderStr, List.cons_append, List.append_assoc,
          List.singleton_append]
        simp only [parseMembers]
        rw [skipWs_cons_of_not (by decide)]
        simp only [q_ne_rb, if_false, eq_self_iff_true, if_true]
        rw [parseStrBody_esc]
        simp [skipWs_cons_of_not (show isWsChar (':' : Char) = false by decide),
          skipWs_cons_of_not (show isWsChar (',' : Char) = false by decide),
          parseVal_sp, parseMembers_sp,
          ihV v (',' :: ' ' :: (renderMembers (m :: ms) ++ rbraceChar :: rest)) hlen1
            (show isDigitChar ',' = false by decide),
          ihM (m :: ms) rest hlen2, string_mk_data]

/-! ## Cache-store lemmas and claims C2, C1, C9 -/

theorem string_data_mk (l : List Char) : (String.mk l).data = l := rfl

/-- C2: saving any mapping of string keys to (modelled) JSON-serializable
values with `save_cache` and then calling `load_cache` returns a mapping
equal to the one saved; hence every cache key written in a session reads
back in the same or a later session with exactly the stored value. -/
theorem c2_save_load_roundtrip (m : CacheMap) (file : Option String) :
    load_cache (save_cache m file) = Json.obj m := by
  have h := (parse_render ((renderJson (Json.obj m)).length + 2)).1 (Json.obj m) []
    (by omega) trivial
  rw [List.append_nil] at h
  simp [load_cache, save_cache, json_dumps, json_loads, string_data_mk, h, skipWs]

theorem alookup_pyDictSet (m : CacheMap) (k : String) (v : Json) :
    alookup (pyDictSet m k v) k = some v := by
  induction m with
  | nil => simp [pyDictSet, alookup]
  | cons kv m ih =>
    obtain ⟨k', v'⟩ := kv
    by_cases h : k' = k
    · subst h
      simp [pyDictSet, alookup]
    · simp [pyDictSet, alookup, h, ih]

/-- C1 is refuted at this input: an API-cache miss performs the network
request with no preceding delay - its effect trace holds only the request
and the save, no sleep - though the claim asserts a fixed delay before the
network request on every fetch through the cache store. -/
theorem c1_api_fetch_counterexample :
    (make_request_with_cache_api exApiNet "KEY"
        "http://www.mapquestapi.com/search/v2/radius" exSite []).trace =
      [Action.netGet "http://www.mapquestapi.com/search/v2/radius", Action.saveFile] ∧
    Action.sleep ∉
      (make_request_with_cache_api exApiNet "KEY"
        "http://www.mapquestapi.com/search/v2/radius" exSite []).trace :=
  ⟨rfl, by decide⟩

/-- C1 (amended): on a hit, both fetch-through-cache functions return the
cached value immediately with no sleep, no request and no write; on a miss,
the page fetch sleeps, requests, stores the response text under the url,
persists the whole mapping and returns the fresh value, while the API fetch
does the same keyed by the site name but performs its request with NO
preceding delay. -/
theorem c1_cache_fetch_amended (net : String → String)
    (netApi : String → ApiParams → Json) (mapKey base_url url : String)
    (site : NationalSite) (cache : CacheMap) :
    (∀ v, alookup cache url = some v →
      make_url_request_using_cache net url cache = ⟨v, cache, none, []⟩) ∧
    (alookup cache url = none →
      make_url_request_using_cache net url cache =
        ⟨Json.str (net url), pyDictSet cache url (Json.str (net url)),
          some (pyDictSet cache url (Json.str (net url))),
          [Action.sleep, Action.netGet url, Action.saveFile]⟩) ∧
    (∀ v, alookup cache site.name = some v →
      make_request_with_cache_api netApi mapKey base_url site cache =
        ⟨v, cache, none, []⟩) ∧
    (alookup cache site.name = none →
      make_request_with_cache_api netApi mapKey base_url site cache =
        ⟨netApi base_url (mapquestParams mapKey site),
          pyDictSet cache site.name (netApi base_url (mapquestParams mapKey site)),
          some (pyDictSet cache site.name (netApi base_url (mapquestParams mapKey site))),
          [Action.netGet base_url, Action.saveFile]⟩) := by
  refine ⟨?_, ?_, ?_, ?_⟩
  · intro v h
    simp [make_url_request_using_cache, h]
  · intro h
    simp [make_url_request_using_cache, h, getItem, alookup_pyDictSet]
  · intro v h
    simp [make_request_with_cache_api, h]
  · intro h
    simp [make_request_with_cache_api, h, getItem, alookup_pyDictSet]

/-- Witness for the amended C1 at concrete inputs: a page miss, a page hit,
an API miss and an API hit. -/
theorem c1_cache_fetch_amended_witness :
    make_url_request_using_cache exPageNet "https://www.nps.gov/index.htm" [] =
      ⟨Json.str "PAGE", [("https://www.nps.gov/index.htm", Json.str "PAGE")],
        some [("https://www.nps.gov/index.htm", Json.str "PAGE")],
        [Action.sleep, Action.netGet "https://www.nps.gov/index.htm",
          Action.saveFile]⟩ ∧
    make_url_request_using_cache exPageNet "https://www.nps.gov/index.htm"
        [("https://www.nps.gov/index.htm", Json.str "OLD")] =
      ⟨Json.str "OLD", [("https://www.nps.gov/index.htm", Json.str "OLD")], none, []⟩ ∧
    make_request_with_cache_api exApiNet "KEY" "B" exSite [] =
      ⟨Json.str "PLACES", [("Sleeping Bear Dunes", Json.str "PLACES")],
        some [("Sleeping Bear Dunes", Json.str "PLACES")],
        [Action.netGet "B", Action.saveFile]⟩ ∧
    make_request_with_cache_api exApiNet "KEY" "B" exSite
        [("Sleeping Bear Dunes", Json.str "OLD")] =
      ⟨Json.str "OLD", [("Sleeping Bear Dunes", Json.str "OLD")], none, []⟩ :=
  ⟨(c1_cache_fetch_amended exPageNet exApiNet "KEY" "B" "https://www.nps.gov/index.htm"
      exSite []).2.1 rfl,
   (c1_cache_fetch_amended exPageNet exApiNet "KEY" "B" "https://www.nps.gov/index.htm"
      exSite [("https://www.nps.gov/index.htm", Json.str "OLD")]).1 (Json.str "OLD") rfl,
   (c1_cache_fetch_amended exPageNet exApiNet "KEY" "B" "https://www.nps.gov/index.htm"
      exSite []).2.2.2 rfl,
   (c1_cache_fetch_amended exPageNet exApiNet "KEY" "B" "https://www.nps.gov/index.htm"
      exSite [("Sleeping Bear Dunes", Json.str "OLD")]).2.2.1 (Json.str "OLD") rfl⟩

/-- C9: the nearby-places request is cached under the site NAME: after a
fetch for site `a` fills the cache, a fetch for any site `b` with the same
name returns that cached value with no network request and no write,
regardless of `b`'s (possibly different) zip code and of the response
oracle. -/
theorem c9_api_cache_keyed_by_name (netApi netApi' : String → ApiParams → Json)
    (mapKey mapKey' base_url base_url' : String) (a b : NationalSite)
    (cache : CacheMap) (hname : a.name = b.name)
    (hmiss : alookup cache a.name = none) :
    (make_request_with_cache_api netApi mapKey base_url a cache).value =
      netApi base_url (mapquestParams mapKey a) ∧
    make_request_with_cache_api netApi' mapKey' base_url' b
        (make_request_with_cache_api netApi mapKey base_url a cache).cache =
      ⟨(make_request_with_cache_api netApi mapKey base_url a cache).value,
        (make_request_with_cache_api netApi mapKey base_url a cache).cache,
        none, []⟩ := by
  have h1 : make_request_with_cache_api netApi mapKey base_url a cache =
      ⟨netApi base_url (mapquestParams mapKey a),
        pyDictSet cache a.name (netApi base_url (mapquestParams mapKey a)),
        some (pyDictSet cache a.name (netApi base_url (mapquestParams mapKey a))),
        [Action.netGet base_url, Action.saveFile]⟩ := by
    simp [make_request_with_cache_api, hmiss, getItem, alookup_pyDictSet]
  rw [h1]
  refine ⟨rfl, ?_⟩
  simp [make_request_with_cache_api, ← hname, alookup_pyDictSet]

/-- Witness for C9: two concrete sites sharing a name but with different
zip codes; the second query returns the first one's cached result. -/
theorem c9_api_cache_keyed_by_name_witness :
    (make_request_with_cache_api exApiNet "KEY" "B" exSite []).value =
      Json.str "PLACES" ∧
    make_request_with_cache_api (fun _ _ => Json.null) "KEY2" "B2" exSiteOtherZip
        (make_request_with_cache_api exApiNet "KEY" "B" exSite []).cache =
      ⟨(make_request_with_cache_api exApiNet "KEY" "B" exSite []).value,
        (make_request_with_cache_api exApiNet "KEY" "B" exSite []).cache,
        none, []⟩ :=
  c9_api_cache_keyed_by_name exApiNet (fun _ _ => Json.null) "KEY" "KEY2" "B" "B2"
    exSite exSiteOtherZip [] rfl rfl

/-! ## State table lemmas and claims C3, C7, C8, C10 -/

theorem resolve_table : ∀ p ∈ statesList,
    resolveStateLower p.1 =
      .url (nps_base_url ++ "/" ++ p.2 ++ "/" ++ "/index.htm") ∧
    resolveStateLower p.2 =
      .url (nps_base_url ++ "/" ++ p.2 ++ "/" ++ "/index.htm") := by
  have hall : statesList.all (fun p =>
      decide (resolveStateLower p.1 =
        .url (nps_base_url ++ "/" ++ p.2 ++ "/" ++ "/index.htm")) &&
      decide (resolveStateLower p.2 =
        .url (nps_base_url ++ "/" ++ p.2 ++ "/" ++ "/index.htm"))) = true := by
    rfl
  intro p hp
  have h := List.all_eq_true.mp hall p hp
  simp only [Bool.and_eq_true, decide_eq_true_eq] at h
  exact h

/-- C3: for every state in the static table, every user spelling whose
lowercasing is the full state name or the two-letter abbreviation resolves
at the state prompt to the identical state page URL. -/
theorem c3_state_spellings (name ab s t : String)
    (hmem : (name, ab) ∈ statesList) (hs : pyLower s = name)
    (ht : pyLower t = ab) :
    resolveState s = .url (nps_base_url ++ "/" ++ ab ++ "/" ++ "/index.htm") ∧
    resolveState t = .url (nps_base_url ++ "/" ++ ab ++ "/" ++ "/index.htm") := by
  have h := resolve_table (name, ab) hmem
  unfold resolveState
  rw [hs, ht]
  exact h

/-- Witness for C3: mixed-case spellings of Michigan by name and by
abbreviation resolve to the same URL. -/
theorem c3_state_spellings_witness :
    resolveState "MIchiGan" = .url (nps_base_url ++ "/" ++ "mi" ++ "/" ++ "/index.htm") ∧
    resolveState "Mi" = .url (nps_base_url ++ "/" ++ "mi" ++ "/" ++ "/index.htm") :=
  c3_state_spellings "michigan" "mi" "MIchiGan" "Mi" (by decide) rfl rfl

/-- C7 is refuted on the URL shape: the loop builds
`base_url + '/' + 'mi' + '/' + '/index.htm'`, so the Michigan state URL is
`https://www.nps.gov/mi//index.htm` with a doubled slash, and it does not
end with `/mi/index.htm`. -/
theorem c7_michigan_url_counterexample :
    resolveState "michigan" = .url "https://www.nps.gov/mi//index.htm" ∧
    strEndsWith "https://www.nps.gov/mi//index.htm" "/mi/index.htm" = false :=
  ⟨rfl, rfl⟩

theorem numberFrom_map_fst {α : Type} (l : List α) : ∀ (i : Nat),
    (numberFrom i l).map Prod.fst = List.range' i l.length := by
  induction l with
  | nil => intro i; simp [numberFrom]
  | cons x l ih => intro i; simp [numberFrom, List.range'_succ, ih]

/-- C7 (amended): on input 'michigan' (equivalently 'mi') the state URL the
loop fetches from is `https://www.nps.gov/mi//index.htm` - it ends with
`/mi//index.htm` (doubled slash), not `/mi/index.htm` - and the fetched
site list is printed numbered from 1 upwards. -/
theorem c7_michigan_amended :
    resolveState "michigan" = .url "https://www.nps.gov/mi//index.htm" ∧
    resolveState "mi" = .url "https://www.nps.gov/mi//index.htm" ∧
    strEndsWith "https://www.nps.gov/mi//index.htm" "/mi//index.htm" = true ∧
    ∀ (α : Type) (sites : List α),
      (printSiteListing sites).map Prod.fst = List.range' 1 sites.length := by
  refine ⟨rfl, rfl, rfl, ?_⟩
  intro α sites
  unfold printSiteListing
  by_cases h : 1 ≤ sites.length
  · rw [if_pos h, numberFrom_map_fst]
  · rw [if_neg h]
    have hz : sites.length = 0 := by omega
    simp [hz]

/-- C8 is refuted: on a concrete index page the directory builder maps
michigan to `https://www.nps.gov/state/mi/index.htm`, while the interactive
loop - which never calls `build_state_url_dict` - uses
`https://www.nps.gov/mi//index.htm` built from the static table, a
different URL. -/
theorem c8_loop_vs_builder_counterexample :
    build_state_url_dict_doc exIndexDoc =
      some [("michigan", "https://www.nps.gov/state/mi/index.htm")] ∧
    resolveState "michigan" = .url "https://www.nps.gov/mi//index.htm" ∧
    ("https://www.nps.gov/state/mi/index.htm" : String) ≠
      "https://www.nps.gov/mi//index.htm" :=
  ⟨rfl, rfl, by decide⟩

/-- C8 (amended): the interactive loop computes its state page URL from the
static `states` table alone, as `base_url + '/' + abbreviation +
'//index.htm'`, whether the entered text lowercases to the full name or to
the abbreviation; `build_state_url_dict` plays no part in it. -/
theorem c8_loop_static_table_amended (name ab input : String)
    (hmem : (name, ab) ∈ statesList)
    (hlow : pyLower input = name ∨ pyLower input = ab) :
    resolveState input = .url (nps_base_url ++ "/" ++ ab ++ "/" ++ "/index.htm") := by
  have h := resolve_table (name, ab) hmem
  unfold resolveState
  rcases hlow with h1 | h1
  · rw [h1]
    exact h.1
  · rw [h1]
    exact h.2

/-- Witness for the amended C8 at the michigan entry. -/
theorem c8_loop_static_table_amended_witness :
    resolveState "Michigan" =
      .url (nps_base_url ++ "/" ++ "mi" ++ "/" ++ "/index.htm") :=
  c8_loop_static_table_amended "michigan" "mi" "Michigan" (by decide) (Or.inl rfl)

/-- C10: every cache-consulting operation (directory build, state-page
fetch via the site-list builder, site-detail fetch, nearby-places API
request) is a function of the cache-file contents alone: each reloads the
cache from the file at its start (`CACHE_DICT = load_cache()` binds a fresh
local, there is no `global` declaration), so the module-level `CACHE_DICT`
stays whatever it was - empty - passes through unchanged, and varying it
changes neither the result, the resulting file contents, nor the effect
trace. -/
theorem c10_cache_file_sole_source (parse : String → HNode)
    (net : String → String) (netApi : String → ApiParams → Json)
    (mapKey base_url site_url state_url : String) (site : NationalSite)
    (file : Option String) (g : CacheMap) :
    (build_state_url_dict_run parse net ⟨file, g⟩ =
      ((build_state_url_dict_core parse net file).1,
        ⟨(build_state_url_dict_core parse net file).2.1, g⟩,
        (build_state_url_dict_core parse net file).2.2)) ∧
    (get_site_instance_run parse net site_url ⟨file, g⟩ =
      ((get_site_instance_core parse net site_url file).1,
        ⟨(get_site_instance_core parse net site_url file).2.1, g⟩,
        (get_site_instance_core parse net site_url file).2.2)) ∧
    (get_sites_for_state_run parse net state_url ⟨file, g⟩ =
      ((get_sites_for_state_core parse net state_url file).1,
        ⟨(get_sites_for_state_core parse net state_url file).2.1, g⟩,
        (get_sites_for_state_core parse net state_url file).2.2)) ∧
    (make_request_with_cache_api_run netApi mapKey base_url site ⟨file, g⟩ =
      ((make_request_with_cache_api_core netApi mapKey base_url site file).1,
        ⟨(make_request_with_cache_api_core netApi mapKey base_url site file).2.1, g⟩,
        (make_request_with_cache_api_core netApi mapKey base_url site file).2.2)) :=
  ⟨rfl, rfl, rfl, rfl⟩

/-! ## Extractor claims C4 and nearby-places claims C6 -/

/-- C4 is refuted at this page: the postal-code node exists but holds only
whitespace, so the extracted text is empty after trimming, yet the zip-code
field is the empty string and not the placeholder 'Not found zipcode' - the
empty-after-trim fallback exists only for the category field. -/
theorem c4_zipcode_counterexample :
    zipLookup exZipDoc = some "  " ∧
    (get_site_instance_extract exZipDoc).map NationalSite.zipcode = some "" ∧
    ("" : String) ≠ "Not found zipcode" :=
  ⟨rfl, rfl, by decide⟩

/-- C4 (amended): whenever the hero container and the title anchor exist,
`get_site_instance` produces a record without propagating an error, and on
a failed structural lookup each of the four optional fields receives its
placeholder; the empty-after-trim fallback applies to the category only -
a successfully looked-up zip code is kept as its trimmed text even when
that is empty, a successfully looked-up address is the untrimmed,
unchecked locality and region texts joined by ', ', and a successfully
looked-up phone keeps its text with no whitespace trim and no empty check,
except that the record constructor strips leading and trailing newlines
off it. -/
theorem c4_placeholders_amended (doc park_parent nm : HNode)
    (hhero : heroParent doc = some park_parent)
    (hname : findInside (selTagClass "a" "Hero-title") park_parent = some nm) :
    ∃ site, get_site_instance_extract doc = some site ∧
      (categoryLookup park_parent = none → site.category = "Not found category") ∧
      (∀ t, categoryLookup park_parent = some t → pyStrip t = "" →
        site.category = "Not found category") ∧
      (zipLookup doc = none → site.zipcode = "Not found zipcode") ∧
      (∀ t, zipLookup doc = some t → site.zipcode = pyStrip t) ∧
      (localityLookup doc = none ∨ regionLookup doc = none →
        site.address = "Not found address") ∧
      (∀ a b, localityLookup doc = some a → regionLookup doc = some b →
        site.address = a ++ ", " ++ b) ∧
      (phoneLookup doc = none → site.phone = "Not found phone number") ∧
      (∀ t, phoneLookup doc = some t → site.phone = stripChar '\n' t) := by
  unfold get_site_instance_extract
  rw [hhero]
  simp only [hname, Option.map_some']
  refine ⟨_, rfl, ?_, ?_, ?_, ?_, ?_, ?_, ?_, ?_⟩
  · intro h
    simp [NationalSite.make, h]
  · intro t h he
    simp [NationalSite.make, h, he]
  · intro h
    simp [NationalSite.make, h]
  · intro t h
    simp [NationalSite.make, h]
  · intro h
    rcases h with h | h
    · simp [NationalSite.make, h]
    · cases hl : localityLookup doc with
      | none => simp [NationalSite.make, hl]
      | some a => simp [NationalSite.make, hl, h]
  · intro a b ha hb
    simp [NationalSite.make, ha, hb]
  · intro h
    simp [NationalSite.make, h,
      (show stripChar '\n' "Not found phone number" = "Not found phone number" from rfl)]
  · intro t h
    simp [NationalSite.make, h]

/-- Witness for the amended C4: on a page with hero and title only, all
four optional lookups fail and every placeholder appears; on a page where
they all succeed with degenerate text, the empty-stripped zip is kept as
'', the empty locality and region join to ', ', and the phone keeps its
inner spaces with only the surrounding newlines stripped. -/
theorem c4_placeholders_amended_witness :
    ((get_site_instance_extract exBareDoc).map NationalSite.category =
      some "Not found category" ∧
    (get_site_instance_extract exBareDoc).map NationalSite.zipcode =
      some "Not found zipcode" ∧
    (get_site_instance_extract exBareDoc).map NationalSite.address =
      some "Not found address" ∧
    (get_site_instance_extract exBareDoc).map NationalSite.phone =
      some "Not found phone number") ∧
    ((get_site_instance_extract exFullDoc).map NationalSite.zipcode = some "" ∧
    (get_site_instance_extract exFullDoc).map NationalSite.address = some ", " ∧
    (get_site_instance_extract exFullDoc).map NationalSite.phone = some "  ") := by
  constructor
  · obtain ⟨site, hsite, hc, -, hz, -, ha, -, hp, -⟩ :=
      c4_placeholders_amended exBareDoc
        (.elem "div" [("class", "Hero-titleContainer clearfix")]
          [.elem "a" [("class", "Hero-title")] [.text "Isle Royale"]])
        (.elem "a" [("class", "Hero-title")] [.text "Isle Royale"]) rfl rfl
    rw [hsite]
    simp only [Option.map_some']
    rw [hc rfl, hz rfl, ha (Or.inl rfl), hp rfl]
    exact ⟨rfl, rfl, rfl, rfl⟩
  · obtain ⟨site, hsite, -, -, -, hz, -, ha, -, hp⟩ :=
      c4_placeholders_amended exFullDoc
        (.elem "div" [("class", "Hero-titleContainer clearfix")] [
          .elem "a" [("class", "Hero-title")] [.text "Isle Royale"],
          .elem "div" [("class", "Hero-designationContainer")] [
            .elem "span" [("class", "Hero-designation")] [.text " National Park "]]])
        (.elem "a" [("class", "Hero-title")] [.text "Isle Royale"]) rfl rfl
    rw [hsite]
    simp only [Option.map_some']
    rw [hz "  " rfl, ha "" "" rfl rfl, hp "\n  \n" rfl]
    exact ⟨rfl, rfl, rfl⟩

/-- C6 is refuted at this result item: its `fields` object carries neither
the primary nor the alternate category field, so the `except` branch raises
an uncaught KeyError - no Place record is produced and the error
propagates. -/
theorem c6_category_counterexample :
    primaryCategoryLookup (Json.obj [("name", Json.str "Glen Arbor Store"),
      ("fields", Json.obj [])]) = none ∧
    extCategoryLookup (Json.obj [("name", Json.str "Glen Arbor Store"),
      ("fields", Json.obj [])]) = none ∧
    make_nearby_instance_list exNearbyDict = none :=
  ⟨rfl, rfl, rfl⟩

/-- C6 (amended): a present primary category is used, with the placeholder
'no category' substituted when it trims to empty; when the primary lookup
fails, the alternate field is used stripped but with NO empty-string
fallback and NO further protection - when that lookup fails as well, the
error propagates out of `make_nearby_instance_list` instead of any
placeholder being substituted. -/
theorem c6_category_fallback_amended (member : Json) :
    (∀ s, primaryCategoryLookup member = some s →
      categoryOfMember member =
        some (if pyStrip s = "" then "no category" else pyStrip s)) ∧
    (primaryCategoryLookup member = none →
      ∀ s, extCategoryLookup member = some s →
        categoryOfMember member = some (pyStrip s)) ∧
    (primaryCategoryLookup member = none → extCategoryLookup member = none →
      categoryOfMember member = none) ∧
    (primaryCategoryLookup member = none → extCategoryLookup member = none →
      ∀ results, make_nearby_instance_list
        (Json.obj [("searchResults", Json.arr (member :: results))]) = none) := by
  refine ⟨?_, ?_, ?_, ?_⟩
  · intro s h
    simp [categoryOfMember, h]
  · intro h s h2
    simp [categoryOfMember, h, h2]
  · intro h h2
    simp [categoryOfMember, h, h2]
  · intro h h2 results
    have hp : placeOfMember member = none := by
      cases hn : jGet member "name" with
      | none => simp [placeOfMember, hn]
      | some nm => simp [placeOfMember, hn, categoryOfMember, h, h2]
    have hfold : placesFold (member :: results) = none := by
      simp [placesFold, hp]
    simp [make_nearby_instance_list,
      (show jGet (Json.obj [("searchResults", Json.arr (member :: results))])
        "searchResults" = some (Json.arr (member :: results)) from rfl), hfold]

/-- Witness for the amended C6: a primary category that strips to 'Cafe', an
alternate-only category that strips to the EMPTY string (kept, no
placeholder), and an item with neither field, which poisons the whole
list. -/
theorem c6_category_fallback_amended_witness :
    categoryOfMember exMemberPrimary = some "Cafe" ∧
    categoryOfMember exMemberExt = some "" ∧
    categoryOfMember (Json.obj [("name", Json.str "C"), ("fields", Json.obj [])]) =
      none ∧
    make_nearby_instance_list (Json.obj [("searchResults",
      Json.arr [Json.obj [("name", Json.str "C"), ("fields", Json.obj [])]])]) =
      none :=
  ⟨(c6_category_fallback_amended exMemberPrimary).1 " Cafe " rfl,
   (c6_category_fallback_amended exMemberExt).2.1 rfl "  " rfl,
   (c6_category_fallback_amended (Json.obj [("name", Json.str "C"),
      ("fields", Json.obj [])])).2.2.1 rfl rfl,
   (c6_category_fallback_amended (Json.obj [("name", Json.str "C"),
      ("fields", Json.obj [])])).2.2.2 rfl rfl []⟩

/-! ## Detail-choice prompt claims C5 -/

theorem pyIsNumeric_ne_back {s : String} (h : pyIsNumeric s = true) : s ≠ "back" := by
  intro he
  rw [he] at h
  exact absurd h (by decide)

theorem pyIsNumeric_ne_exit {s : String} (h : pyIsNumeric s = true) : s ≠ "exit" := by
  intro he
  rw [he] at h
  exact absurd h (by decide)

/-- C5 is refuted at this input: with three sites listed, the numeric
choice '0' is outside the range 1..3, yet the prompt does not reprompt -
`int('0') <= 3` passes the only bound check and `sites_list[-1]` selects
the LAST site, so a nearby-places query is performed for it. -/
theorem c5_zero_choice_counterexample :
    detailStep ["Isle Royale", "Keweenaw", "Pictured Rocks"] "0" =
      .query "Pictured Rocks" 0 ∧
    detailStep ["Isle Royale", "Keweenaw", "Pictured Rocks"] "0" ≠
      DetailOutcome.reprompt :=
  ⟨rfl, by decide⟩

/-- C5 (amended): at the detail prompt, a numeric choice in 1..n queries
the chosen site and the loop stays at the prompt; the numeric choice 0 also
performs a query - of the LAST site, through Python's negative indexing -
whenever the list is nonempty; a numeric choice above n and every
non-numeric input other than 'back' and 'exit' print an error and reprompt
with no query. -/
theorem c5_detail_prompt_amended {α : Type} (sites : List α) (input : String) :
    (pyIsNumeric (pyLower input) = true → 1 ≤ pyStrToNat (pyLower input) →
      pyStrToNat (pyLower input) ≤ sites.length →
      ∃ site, sites.get? (pyStrToNat (pyLower input) - 1) = some site ∧
        detailStep sites input = .query site (pyStrToNat (pyLower input))) ∧
    (pyIsNumeric (pyLower input) = true → pyStrToNat (pyLower input) = 0 →
      1 ≤ sites.length →
      ∃ site, sites.get? (sites.length - 1) = some site ∧
        detailStep sites input = .query site 0) ∧
    (pyIsNumeric (pyLower input) = true →
      sites.length < pyStrToNat (pyLower input) →
      detailStep sites input = .reprompt) ∧
    (pyIsNumeric (pyLower input) = false → pyLower input ≠ "back" →
      pyLower input ≠ "exit" → detailStep sites input = .reprompt) := by
  refine ⟨?_, ?_, ?_, ?_⟩
  · intro hnum h1 h2
    have hb : (pyLower input == "back") = false := by
      simp [pyIsNumeric_ne_back hnum]
    have hx : (pyLower input == "exit") = false := by
      simp [pyIsNumeric_ne_exit hnum]
    have h0 : 0 ≤ (pyStrToNat (pyLower input) : Int) - 1 := by omega
    have htn : ((pyStrToNat (pyLower input) : Int) - 1).toNat =
        pyStrToNat (pyLower input) - 1 := by omega
    have hlt : pyStrToNat (pyLower input) - 1 < sites.length := by omega
    refine ⟨sites.get ⟨pyStrToNat (pyLower input) - 1, hlt⟩, List.get?_eq_get hlt, ?_⟩
    simp [detailStep, hb, hx, hnum, h2, pyNegIndex, h0, htn, List.get?_eq_get hlt,
      List.getElem?_eq_getElem hlt]
  · intro hnum h1 h2
    have hb : (pyLower input == "back") = false := by
      simp [pyIsNumeric_ne_back hnum]
    have hx : (pyLower input == "exit") = false := by
      simp [pyIsNumeric_ne_exit hnum]
    have hlt : sites.length - 1 < sites.length := by omega
    refine ⟨sites.get ⟨sites.length - 1, hlt⟩, List.get?_eq_get hlt, ?_⟩
    simp [detailStep, hb, hx, hnum, h1, pyNegIndex, h2, hlt, List.get?_eq_get hlt,
      List.getElem?_eq_getElem hlt]
  · intro hnum h1
    have hb : (pyLower input == "back") = false := by
      simp [pyIsNumeric_ne_back hnum]
    have hx : (pyLower input == "exit") = false := by
      simp [pyIsNumeric_ne_exit hnum]
    simp [detailStep, hb, hx, hnum]
    omega
  · intro hnum hb hx
    have hb' : (pyLower input == "back") = false := by simp [hb]
    have hx' : (pyLower input == "exit") = false := by simp [hx]
    simp [detailStep, hb', hx', hnum]

/-- Witness for the amended C5 with three concrete sites: choice '2'
queries the second site, choice '0' queries the LAST site, choice '9'
reprompts, and 'About' reprompts. -/
theorem c5_detail_prompt_amended_witness :
    (∃ site, (["Isle Royale", "Keweenaw", "Pictured Rocks"] : List String).get? 1 =
        some site ∧
      detailStep ["Isle Royale", "Keweenaw", "Pictured Rocks"] "2" = .query site 2) ∧
    (∃ site, (["Isle Royale", "Keweenaw", "Pictured Rocks"] : List String).get? 2 =
        some site ∧
      detailStep ["Isle Royale", "Keweenaw", "Pictured Rocks"] "0" = .query site 0) ∧
    detailStep ["Isle Royale", "Keweenaw", "Pictured Rocks"] "9" = .reprompt ∧
    detailStep ["Isle Royale", "Keweenaw", "Pictured Rocks"] "About" = .reprompt :=
  ⟨(c5_detail_prompt_amended ["Isle Royale", "Keweenaw", "Pictured Rocks"] "2").1
      rfl (by decide) (by decide),
   (c5_detail_prompt_amended ["Isle Royale", "Keweenaw", "Pictured Rocks"] "0").2.1
      rfl rfl (by decide),
   (c5_detail_prompt_amended ["Isle Royale", "Keweenaw", "Pictured Rocks"] "9").2.2.1
      rfl (by decide),
   (c5_detail_prompt_amended ["Isle Royale", "Keweenaw", "Pictured Rocks"] "About").2.2.2
      rfl (by decide) (by decide)⟩

end NPS
